import Mathlib

/-
Verification of the data-cleaning pipeline in scripts/data_cleaning.py.

The pipeline operates on a pandas DataFrame.  We embed a DataFrame as a
list of named columns; each column is either numeric (cells are rational
numbers, with `none` standing for NaN) or textual (cells are strings,
with `none` standing for NaN).  Rows are aligned positionally across the
columns of a table.  Floating-point numbers are modelled by rationals,
and the real-valued standardisation step (StandardScaler) is modelled
over the reals.
-/

/-- A numeric cell: `none` models NaN / a missing value. -/
abbrev NumCell := Option ℚ

/-- A text cell: `none` models NaN / a missing value. -/
abbrev StrCell := Option String

/-- Column payload: a numeric (float-dtype) or textual (object-dtype) column. -/
inductive ColData where
  | numeric : List NumCell → ColData
  | text : List StrCell → ColData
deriving DecidableEq

/-- A named column of a DataFrame. -/
structure Col where
  name : String
  data : ColData
deriving DecidableEq

/-- A DataFrame: an ordered list of named columns, rows aligned by position. -/
abbrev Table := List Col

deriving instance DecidableEq for Except

/-- Number of cells in a column. -/
def colLen : ColData → Nat
  | .numeric d => d.length
  | .text d => d.length

/-- Number of rows of a table (pandas: `len(df)`, the length of any column). -/
def nRows (t : Table) : Nat :=
  match t with
  | [] => 0
  | c :: _ => colLen c.data

/-- ASCII uppercase of a character (models `str.upper` on the ASCII range). -/
def upChar (c : Char) : Char :=
  if h : 97 ≤ c.toNat ∧ c.toNat ≤ 122 then
    Char.ofNatAux (c.toNat - 32) (Or.inl (by omega))
  else c

/-- Replace a space by an underscore (models `.str.replace(' ', '_')`). -/
def spaceToU (c : Char) : Char := if c = ' ' then '_' else c

/-- Replace a hyphen by an underscore (models `.str.replace('-', '_')`). -/
def dashToU (c : Char) : Char := if c = '-' then '_' else c

/-- Word characters kept by the regex `[^\w_]` removal (ASCII model of `\w`). -/
def isWordChar (c : Char) : Bool := c.isAlphanum || c = '_'

/-- Remove leading and trailing whitespace (models `str.strip`). -/
def trimChars (l : List Char) : List Char :=
  ((l.dropWhile Char.isWhitespace).reverse.dropWhile Char.isWhitespace).reverse

/-- Column-name normalisation on the character list: strip, uppercase,
space and hyphen to underscore, then delete non-word characters
(lines 144-149 of `clean_column_names`). -/
def cleanChars (l : List Char) : List Char :=
  ((((trimChars l).map upChar).map spaceToU).map dashToU).filter isWordChar

/-- Column-name normalisation on strings. -/
def cleanName (s : String) : String := (cleanChars s.toList).asString

/-- Stage `clean_column_names`: normalise every column name; the data is
untouched. -/
def clean_column_names (t : Table) : Table :=
  t.map fun c => ⟨cleanName c.name, c.data⟩

theorem toNat_ofNatAux (n : Nat) (h : n.isValidChar) : (Char.ofNatAux n h).toNat = n := rfl

theorem upChar_notLower (c : Char) : ¬ (97 ≤ (upChar c).toNat ∧ (upChar c).toNat ≤ 122) := by
  unfold upChar
  split
  · rename_i h
    rw [toNat_ofNatAux]
    omega
  · rename_i h
    exact h

theorem upChar_eq_of_notLower (c : Char) (h : ¬ (97 ≤ c.toNat ∧ c.toNat ≤ 122)) :
    upChar c = c := by
  unfold upChar
  rw [dif_neg h]

theorem spaceToU_notLower (c : Char) (h : ¬ (97 ≤ c.toNat ∧ c.toNat ≤ 122)) :
    ¬ (97 ≤ (spaceToU c).toNat ∧ (spaceToU c).toNat ≤ 122) := by
  unfold spaceToU
  split
  · decide
  · exact h

theorem dashToU_notLower (c : Char) (h : ¬ (97 ≤ c.toNat ∧ c.toNat ≤ 122)) :
    ¬ (97 ≤ (dashToU c).toNat ∧ (dashToU c).toNat ≤ 122) := by
  unfold dashToU
  split
  · decide
  · exact h

theorem map_eq_self_of_fix {α : Type} (l : List α) (f : α → α)
    (h : ∀ x ∈ l, f x = x) : l.map f = l := by
  induction l with
  | nil => rfl
  | cons a l ih =>
    simp only [List.map_cons, h a (List.mem_cons_self a l)]
    rw [ih fun x hx => h x (List.mem_cons_of_mem a hx)]

theorem isWordChar_not_ws (c : Char) (h : isWordChar c = true) :
    c.isWhitespace = false := by
  by_contra hw
  simp only [Bool.not_eq_false] at hw
  simp only [Char.isWhitespace, Bool.or_eq_true, decide_eq_true_eq] at hw
  rcases hw with ((rfl | rfl) | rfl) | rfl <;> simp [isWordChar, Char.isAlphanum,
    Char.isAlpha, Char.isUpper, Char.isLower, Char.isDigit] at h

theorem dropWhile_eq_self_of_none {α : Type} (p : α → Bool) (l : List α)
    (h : ∀ x ∈ l, p x = false) : l.dropWhile p = l := by
  cases l with
  | nil => rfl
  | cons a l =>
    rw [List.dropWhile_cons_of_neg]
    simp [h a (List.mem_cons_self a l)]

theorem trimChars_eq_self (l : List Char) (h : ∀ x ∈ l, x.isWhitespace = false) :
    trimChars l = l := by
  unfold trimChars
  rw [dropWhile_eq_self_of_none _ _ h, dropWhile_eq_self_of_none, List.reverse_reverse]
  intro x hx
  exact h x (List.mem_reverse.mp hx)

theorem mem_cleanChars_wordChar (l : List Char) (c : Char) (h : c ∈ cleanChars l) :
    isWordChar c = true := (List.mem_filter.mp h).2

theorem mem_cleanChars_notLower (l : List Char) (c : Char) (h : c ∈ cleanChars l) :
    ¬ (97 ≤ c.toNat ∧ c.toNat ≤ 122) := by
  have hm := (List.mem_filter.mp h).1
  obtain ⟨b, hb, rfl⟩ := List.mem_map.mp hm
  obtain ⟨a, ha, rfl⟩ := List.mem_map.mp hb
  obtain ⟨a0, _, rfl⟩ := List.mem_map.mp ha
  exact dashToU_notLower _ (spaceToU_notLower _ (upChar_notLower a0))

theorem cleanChars_idem (l : List Char) : cleanChars (cleanChars l) = cleanChars l := by
  have h1 : trimChars (cleanChars l) = cleanChars l :=
    trimChars_eq_self _ fun x hx => isWordChar_not_ws x (mem_cleanChars_wordChar l x hx)
  have h2 : (cleanChars l).map upChar = cleanChars l := by
    apply map_eq_self_of_fix
    intro x hx
    exact upChar_eq_of_notLower x (mem_cleanChars_notLower l x hx)
  have h3 : (cleanChars l).map spaceToU = cleanChars l := by
    apply map_eq_self_of_fix
    intro x hx
    have hw := mem_cleanChars_wordChar l x hx
    unfold spaceToU
    split
    · rename_i hsp
      subst hsp
      simp [isWordChar, Char.isAlphanum, Char.isAlpha, Char.isUpper,
        Char.isLower, Char.isDigit] at hw
    · rfl
  have h4 : (cleanChars l).map dashToU = cleanChars l := by
    apply map_eq_self_of_fix
    intro x hx
    have hw := mem_cleanChars_wordChar l x hx
    unfold dashToU
    split
    · rename_i hsp
      subst hsp
      simp [isWordChar, Char.isAlphanum, Char.isAlpha, Char.isUpper,
        Char.isLower, Char.isDigit] at hw
    · rfl
  have h5 : (cleanChars l).filter isWordChar = cleanChars l := by
    apply List.filter_eq_self.mpr
    intro x hx
    exact mem_cleanChars_wordChar l x hx
  show ((((trimChars (cleanChars l)).map upChar).map spaceToU).map dashToU).filter isWordChar
      = cleanChars l
  rw [h1, h2, h3, h4, h5]

theorem cleanName_idem (s : String) : cleanName (cleanName s) = cleanName s := by
  show (cleanChars (cleanChars s.toList)).asString = (cleanChars s.toList).asString
  rw [cleanChars_idem]

/-- C9: column-name normalisation is a deterministic (pure) function of the
column names and is idempotent: applying `clean_column_names` to an
already-normalised table changes nothing. -/
theorem clean_column_names_idempotent (t : Table) :
    clean_column_names (clean_column_names t) = clean_column_names t := by
  unfold clean_column_names
  rw [List.map_map]
  apply List.map_congr_left
  intro c _
  simp [Function.comp, cleanName_idem]

/-- Numeric value of a run of decimal digit characters. -/
def digitsVal (l : List Char) : Nat := l.foldl (fun a c => 10 * a + (c.toNat - 48)) 0

/-- Exponent part of a float literal: optional sign then a nonempty digit run.
Returns the parsed exponent (if well-formed) and the unconsumed rest. -/
def parseExp (l : List Char) : Option ℤ × List Char :=
  let sr : ℤ × List Char :=
    match l with
    | '+' :: r => (1, r)
    | '-' :: r => (-1, r)
    | r => (1, r)
  let ep := sr.2.takeWhile Char.isDigit
  let r2 := sr.2.dropWhile Char.isDigit
  (if ep.isEmpty then none else some (sr.1 * (digitsVal ep : ℤ)), r2)

/-- Model of `pd.to_numeric(s, errors='coerce')` on one string: an optionally
signed decimal literal with optional fraction and exponent, surrounded by
optional whitespace.  Failure yields `none` (NaN), never an error.  The
special float literals `inf`/`nan` are not representable in `ℚ` and also
yield `none`. -/
def parseNum (s : String) : Option ℚ :=
  let l := trimChars s.toList
  let sr : ℚ × List Char :=
    match l with
    | '+' :: r => (1, r)
    | '-' :: r => (-1, r)
    | r => (1, r)
  let ip := sr.2.takeWhile Char.isDigit
  let r1 := sr.2.dropWhile Char.isDigit
  let fr : List Char × List Char :=
    match r1 with
    | '.' :: r2 => (r2.takeWhile Char.isDigit, r2.dropWhile Char.isDigit)
    | _ => ([], r1)
  let er : Option ℤ × List Char :=
    match fr.2 with
    | 'e' :: r3 => parseExp r3
    | 'E' :: r3 => parseExp r3
    | _ => (some 0, fr.2)
  if ip.isEmpty && fr.1.isEmpty then none
  else if !er.2.isEmpty then none
  else
    match er.1 with
    | none => none
    | some e =>
        some (sr.1 * ((digitsVal ip : ℚ) + (digitsVal fr.1 : ℚ) / 10 ^ fr.1.length)
          * (10 : ℚ) ^ e)

/-- Rendering of a rational as python renders a float under `astype(str)`
(idealised: integers render without a fractional part). -/
def ratToString (q : ℚ) : String :=
  if q.den = 1 then toString q.num else toString q

/-- String view of a numeric cell under `astype(str)`: NaN renders as "nan". -/
def cellStr (c : NumCell) : String :=
  match c with
  | some q => ratToString q
  | none => "nan"

/-- String view of a text cell under `astype(str)`: NaN renders as "nan". -/
def strCellStr (c : StrCell) : String :=
  match c with
  | some s => s
  | none => "nan"

/-- Delete every comma (models `.str.replace(',', '')`). -/
def stripCommas (s : String) : String := (s.toList.filter (fun c => c != ',')).asString

/-- The recognised numeric columns (line 25 of the source). -/
def numericSet : List String := ["RATING", "VOTES", "RunTime", "Gross"]

/-- The recognised categorical columns (line 29 of the source). -/
def catSet : List String := ["MOVIES", "YEAR", "GENRE", "ONE-LINE", "STARS"]

/-- Coercion used for the VOTES column (line 35): `astype(str)`, strip
commas, then `to_numeric(errors='coerce')`. -/
def coerceVotes : ColData → List NumCell
  | .numeric d => d.map fun c => parseNum (stripCommas (cellStr c))
  | .text d => d.map fun c => parseNum (stripCommas (strCellStr c))

/-- Coercion used for the other numeric columns (line 37):
`to_numeric(errors='coerce')`; an already numeric column is unchanged and a
missing cell stays missing. -/
def coerceNum : ColData → List NumCell
  | .numeric d => d
  | .text d => d.map fun c => c.bind parseNum

/-- Coercion for a recognised numeric column, by name. -/
def coerceCol (name : String) (d : ColData) : List NumCell :=
  if name = "VOTES" then coerceVotes d else coerceNum d

/-- Ascending sort of the observed values of a column. -/
def sortQ (l : List ℚ) : List ℚ := l.insertionSort (· ≤ ·)

/-- Non-missing values of a numeric column, in row order. -/
def someVals (d : List NumCell) : List ℚ := d.filterMap id

/-- Linear-interpolation quantile of a sorted nonempty list (the pandas
default `interpolation='linear'`): position `h = q*(n-1)` interpolates
between the neighbouring order statistics. -/
def quantileSorted (l : List ℚ) (q : ℚ) : ℚ :=
  let h : ℚ := q * ((l.length : ℚ) - 1)
  let i : ℕ := h.floor.toNat
  let lo := l.getD i 0
  let hi := l.getD (i + 1) lo
  lo + (h - (i : ℚ)) * (hi - lo)

/-- `Series.quantile(q)`: computed over non-missing values; NaN (`none`)
when there are none. -/
def quantileQ (d : List NumCell) (q : ℚ) : Option ℚ :=
  let vs := sortQ (someVals d)
  if vs.isEmpty then none else some (quantileSorted vs q)

/-- `Series.median()` = the 0.5 linear quantile of the observed values. -/
def medianQ (d : List NumCell) : Option ℚ := quantileQ d (1/2)

/-- `Series.fillna(v)`: when `v` is NaN (`none`) pandas fills nothing. -/
def fillna (d : List NumCell) (v : Option ℚ) : List NumCell :=
  match v with
  | none => d
  | some m => d.map fun c => some (c.getD m)

/-- A column whose every cell is missing. -/
def allMissing : ColData → Bool
  | .numeric d => d.all fun c => c.isNone
  | .text d => d.all fun c => c.isNone

/-- Line 21: `df.columns = df.columns.str.strip()`. -/
def stripColNames (t : Table) : Table :=
  t.map fun c => ⟨(trimChars c.name.toList).asString, c.data⟩

/-- Line 22: `df.dropna(axis=1, how='all')` removes columns that are
entirely missing. -/
def dropAllMissing (t : Table) : Table := t.filter fun c => !(allMissing c.data)

/-- `fillna('Unknown')` on a categorical column.  On a (degenerate) numeric
column with gaps pandas would produce a mixed object column; that is
modelled as a text column rendering the numbers. -/
def fillCat : ColData → ColData
  | .text d => .text (d.map fun c => some (c.getD "Unknown"))
  | .numeric d =>
      if d.any (fun c => c.isNone) then
        .text (d.map fun c => some (match c with
          | some q => ratToString q
          | none => "Unknown"))
      else .numeric d

/-- Per-column action of `handle_missing_values` (lines 32-48): recognised
numeric columns are coerced and median-filled, recognised categorical
columns are filled with "Unknown", all other columns pass through. -/
def handleCol (c : Col) : Col :=
  if c.name ∈ numericSet then
    ⟨c.name, .numeric (fillna (coerceCol c.name c.data) (medianQ (coerceCol c.name c.data)))⟩
  else if c.name ∈ catSet then ⟨c.name, fillCat c.data⟩
  else c

/-- Stage `handle_missing_values` (lines 18-51): strip column names, drop
all-missing columns, then apply the per-column handling. -/
def handle_missing_values (t : Table) : Table :=
  (dropAllMissing (stripColNames t)).map handleCol

theorem handleCol_name (c : Col) : (handleCol c).name = c.name := by
  unfold handleCol
  split
  · rfl
  · split
    · rfl
    · rfl

set_option maxRecDepth 10000

theorem sortQ_length (l : List ℚ) : (sortQ l).length = l.length :=
  (List.perm_insertionSort _ l).length_eq

theorem medianQ_isSome (d : List NumCell) (h : someVals d ≠ []) :
    (medianQ d).isSome = true := by
  unfold medianQ quantileQ
  have hne : sortQ (someVals d) ≠ [] := by
    intro h0
    apply h
    have hl := sortQ_length (someVals d)
    rw [h0] at hl
    exact List.length_eq_zero.mp hl.symm
  simp [List.isEmpty_iff, hne]

theorem fillna_some_isSome (d : List NumCell) (m : ℚ) :
    ∀ x ∈ fillna d (some m), x.isSome = true := by
  intro x hx
  obtain ⟨c, _, rfl⟩ := List.mem_map.mp hx
  rfl

/-- C1 (amended): after `handle_missing_values`, every column of the
recognised numeric set is a numeric column obtained by coercing the
original column (commas stripped first for VOTES) and filling each gap
with the column's median of its own non-missing values; the column
contains no missing value provided at least one cell coerced successfully
(a column with no coercible cell keeps its NaNs, since the median of an
empty set is NaN and `fillna(NaN)` fills nothing).  Second conjunct: the
spec's VOTES scenario "1,234" / "  " / "500" becomes 1234 / 867 / 500. -/
theorem handle_missing_numeric_spec :
    (∀ (t : Table) (c : Col), c ∈ handle_missing_values t → c.name ∈ numericSet →
      ∃ o ∈ t, (trimChars o.name.toList).asString = c.name ∧
        c.data = ColData.numeric
          (fillna (coerceCol c.name o.data) (medianQ (coerceCol c.name o.data))) ∧
        (someVals (coerceCol c.name o.data) ≠ [] →
          ∀ x ∈ fillna (coerceCol c.name o.data) (medianQ (coerceCol c.name o.data)),
            x.isSome = true))
    ∧ handle_missing_values [⟨"VOTES", ColData.text [some "1,234", some "  ", some "500"]⟩]
      = [⟨"VOTES", ColData.numeric [some 1234, some 867, some 500]⟩] := by
  constructor
  · intro t c hc hnum
    unfold handle_missing_values at hc
    obtain ⟨c1, hc1, rfl⟩ := List.mem_map.mp hc
    rw [handleCol_name c1] at hnum
    unfold dropAllMissing at hc1
    have hc2 := (List.mem_filter.mp hc1).1
    unfold stripColNames at hc2
    obtain ⟨o, ho, rfl⟩ := List.mem_map.mp hc2
    have hcol : handleCol ⟨(trimChars o.name.toList).asString, o.data⟩
        = ⟨(trimChars o.name.toList).asString,
            ColData.numeric (fillna (coerceCol (trimChars o.name.toList).asString o.data)
              (medianQ (coerceCol (trimChars o.name.toList).asString o.data)))⟩ := by
      unfold handleCol
      rw [if_pos hnum]
    rw [hcol]
    refine ⟨o, ho, rfl, rfl, ?_⟩
    intro hvs x hx
    obtain ⟨m, hm⟩ := Option.isSome_iff_exists.mp (medianQ_isSome _ hvs)
    rw [hm] at hx
    exact fillna_some_isSome _ m x hx
  · with_unfolding_all decide

/-- C1 witness: the general part of `handle_missing_numeric_spec`
instantiated at the spec's VOTES scenario table. -/
theorem handle_missing_numeric_spec_witness :
    (⟨"VOTES", ColData.numeric [some 1234, some 867, some 500]⟩ : Col)
        ∈ handle_missing_values [⟨"VOTES", ColData.text [some "1,234", some "  ", some "500"]⟩]
      ∧ "VOTES" ∈ numericSet
      ∧ ∃ o ∈ ([⟨"VOTES", ColData.text [some "1,234", some "  ", some "500"]⟩] : Table),
          (trimChars o.name.toList).asString = "VOTES" ∧
          ColData.numeric [some 1234, some 867, some 500] = ColData.numeric
            (fillna (coerceCol "VOTES" o.data) (medianQ (coerceCol "VOTES" o.data))) ∧
          (someVals (coerceCol "VOTES" o.data) ≠ [] →
            ∀ x ∈ fillna (coerceCol "VOTES" o.data) (medianQ (coerceCol "VOTES" o.data)),
              x.isSome = true) :=
  ⟨by with_unfolding_all decide, by decide,
    handle_missing_numeric_spec.1
      [⟨"VOTES", ColData.text [some "1,234", some "  ", some "500"]⟩]
      ⟨"VOTES", ColData.numeric [some 1234, some 867, some 500]⟩
      (by with_unfolding_all decide) (by decide)⟩

/-- C1 counterexample: a VOTES column none of whose cells coerces to a
number still contains a missing value after the Missing-Value Handler,
contradicting the claim that after the stage the column contains no
missing values. -/
theorem handle_missing_numeric_counterexample :
    handle_missing_values [⟨"VOTES", ColData.text [some "abc"]⟩]
      = [⟨"VOTES", ColData.numeric [none]⟩] := by
  with_unfolding_all decide

/-- Payloads of the numeric columns of a table, in column order
(`df.select_dtypes(include=[np.number])`). -/
def numericDatas (t : Table) : List (List NumCell) :=
  t.filterMap fun c =>
    match c.data with
    | .numeric d => some d
    | .text _ => none

/-- Q1 and Q3 of a column (lines 75-76); `none` (NaN) when the column has
no observed values. -/
def iqrStats (d : List NumCell) : Option (ℚ × ℚ) :=
  match quantileQ d (1/4), quantileQ d (3/4) with
  | some q1, some q3 => some (q1, q3)
  | _, _ => none

/-- The guard `IQR > 0` at line 79; a NaN IQR compares false. -/
def nonzeroIQR (d : List NumCell) : Bool :=
  match iqrStats d with
  | some (q1, q3) => decide (0 < q3 - q1)
  | none => false

/-- One row's fence test for one column (line 80): the value is present and
lies in [Q1 - 1.5 IQR, Q3 + 1.5 IQR]; a NaN cell compares false. -/
def inFence (d : List NumCell) (i : Nat) : Bool :=
  match iqrStats d, d.get? i with
  | some (q1, q3), some (some v) =>
      decide (q1 - 3/2 * (q3 - q1) ≤ v ∧ v ≤ q3 + 3/2 * (q3 - q1))
  | _, _ => false

/-- The conjunctive row mask of lines 72-81: a row passes iff it passes the
fence of every numeric column whose IQR is positive; all fences are
computed on the pre-filter table `t`. -/
def outlierMask (t : Table) (i : Nat) : Bool :=
  (numericDatas t).all fun d => !(nonzeroIQR d) || inFence d i

/-- Keep the entries of a list whose position satisfies the mask
(`df[mask]`, positional row selection). -/
def filterIdx {α : Type} (l : List α) (p : Nat → Bool) : List α :=
  (l.enum.filter fun ix => p ix.1).map Prod.snd

/-- Row filtering of one column by the mask. -/
def filterColData (p : Nat → Bool) : ColData → ColData
  | .numeric d => .numeric (filterIdx d p)
  | .text d => .text (filterIdx d p)

/-- Stage `remove_outliers` (lines 64-86) on a table whose row labels are
the default RangeIndex 0..n-1 (as on a freshly loaded table): there the
line-72 mask lines up with the rows positionally and the stage keeps
exactly the rows passing the joint mask.  `remove_outliers_ix` below
models the stage on an arbitrary carried index, with the label drops and
the unalignable-mask error that a gapped index causes. -/
def remove_outliers (t : Table) : Table :=
  if (numericDatas t).isEmpty then t
  else t.map fun c => ⟨c.name, filterColData (outlierMask t) c.data⟩

/-- Row-keep test of `df[mask]` with the carried index `idx` (the pandas
index of the frame, e.g. the labels surviving `drop_duplicates`): line 72
builds `mask = pd.Series([True]*len(df))` on a fresh RangeIndex(len(df)),
so the mask holds True exactly at labels below `len(df) = idx.length`;
`mask & col_mask` aligns on the union of the two indexes filling missing
entries with False.  Hence the row at position `i` (label `idx[i]`) is
kept iff its label is below `len(df)` and it passes the fence of every
numeric column with positive IQR. -/
def ixKeep (idx : List Nat) (t : Table) (i : Nat) : Bool :=
  match idx.get? i with
  | some l => decide (l < idx.length) && outlierMask t i
  | none => false

/-- Stage `remove_outliers` (lines 64-86) with the pandas index semantics.
When at least one numeric column has positive IQR, the mask has been
`&`-combined at least once, its index is the union of RangeIndex(len(df))
and the frame's labels, `df[mask]` reindexes it by the frame's labels
without error, and each row survives per `ixKeep` — a fence-passing row
whose label is >= len(df) is dropped unconditionally.  When numeric
columns exist but none has positive IQR, the mask is still the bare
RangeIndex(len(df)) series: `df[mask]` reindexes it by the frame's
labels, which raises pandas' unalignable-boolean-indexer error as soon as
some label is >= len(df), and otherwise keeps every row.  With no numeric
columns the stage does nothing.  The surviving labels are returned with
the filtered table. -/
def remove_outliers_ix (idx : List Nat) (t : Table) : Except String (List Nat × Table) :=
  if (numericDatas t).isEmpty then Except.ok (idx, t)
  else
    if (numericDatas t).any nonzeroIQR then
      Except.ok (filterIdx idx (ixKeep idx t),
        t.map fun c => ⟨c.name, filterColData (ixKeep idx t) c.data⟩)
    else
      if idx.any (fun l => decide (idx.length ≤ l)) then
        Except.error "Unalignable boolean Series provided as indexer"
      else Except.ok (idx, t)

theorem outlierMask_all_iff (t : Table) (i : Nat) :
    outlierMask t i = true ↔
      ∀ d ∈ numericDatas t, nonzeroIQR d = true → inFence d i = true := by
  unfold outlierMask
  rw [List.all_eq_true]
  constructor
  · intro h d hd hn
    have := h d hd
    rw [hn] at this
    simpa using this
  · intro h d hd
    by_cases hn : nonzeroIQR d = true
    · simp [hn, h d hd hn]
    · simp [Bool.not_eq_true] at hn
      simp [hn]

theorem filterIdx_of_true {α : Type} (l : List α) (p : Nat → Bool)
    (h : ∀ i, p i = true) : filterIdx l p = l := by
  unfold filterIdx
  rw [List.filter_eq_self.mpr, List.enum_map_snd]
  intro a _
  exact h a.1

theorem numericDatas_nil_text (t : Table) (h : numericDatas t = [])
    (c : Col) (hc : c ∈ t) : ∃ d, c.data = ColData.text d := by
  cases hd : c.data with
  | text d => exact ⟨d, rfl⟩
  | numeric d =>
    exfalso
    have : d ∈ numericDatas t := by
      unfold numericDatas
      exact List.mem_filterMap.mpr ⟨c, hc, by rw [hd]⟩
    rw [h] at this
    exact absurd this (List.not_mem_nil d)

theorem remove_outliers_eq_map (t : Table) :
    remove_outliers t = t.map fun c => ⟨c.name, filterColData (outlierMask t) c.data⟩ := by
  unfold remove_outliers
  split
  · rename_i hemp
    rw [List.isEmpty_iff] at hemp
    have hmask : ∀ i, outlierMask t i = true := by
      intro i
      unfold outlierMask
      rw [hemp]
      rfl
    rw [map_eq_self_of_fix]
    intro c hc
    obtain ⟨d, hd⟩ := numericDatas_nil_text t hemp c hc
    rw [hd]
    show (⟨c.name, ColData.text (filterIdx d (outlierMask t))⟩ : Col) = c
    rw [filterIdx_of_true _ _ hmask, ← hd]
  · rfl

/-- C2 (amended): with the row labels the stage actually receives, when
some numeric column has positive IQR a row survives `remove_outliers_ix`
iff its label is below len(df) AND for every numeric column with nonzero
IQR its value lies within [Q1 - 1.5 IQR, Q3 + 1.5 IQR] (all fences
computed jointly on the pre-filter table; zero- or undefined-IQR columns
impose no constraint); when numeric columns exist but none has positive
IQR, the stage raises the unalignable-indexer error if some label is
>= len(df) and otherwise removes nothing; on the default RangeIndex the
label condition is vacuous and the claimed iff holds as stated. -/
theorem remove_outliers_index_spec (idx : List Nat) (t : Table) (i : Nat) :
    (ixKeep idx t i = true ↔
      ((∃ l, idx.get? i = some l ∧ l < idx.length)
        ∧ ∀ d ∈ numericDatas t, nonzeroIQR d = true → inFence d i = true))
    ∧ ((numericDatas t).isEmpty = false → (numericDatas t).any nonzeroIQR = true →
        remove_outliers_ix idx t = Except.ok
          (filterIdx idx (ixKeep idx t),
            t.map fun c => ⟨c.name, filterColData (ixKeep idx t) c.data⟩))
    ∧ ((numericDatas t).isEmpty = false → (numericDatas t).any nonzeroIQR = false →
        (idx.any (fun l => decide (idx.length ≤ l)) = true →
          remove_outliers_ix idx t
            = Except.error "Unalignable boolean Series provided as indexer")
        ∧ (idx.any (fun l => decide (idx.length ≤ l)) = false →
          remove_outliers_ix idx t = Except.ok (idx, t)))
    ∧ (∀ n, idx = List.range n → i < n →
        (ixKeep idx t i = true ↔ outlierMask t i = true)) := by
  refine ⟨?_, ?_, ?_, ?_⟩
  · unfold ixKeep
    rcases hg : idx.get? i with _ | l
    · simp [hg]
    · rw [Bool.and_eq_true, decide_eq_true_eq, outlierMask_all_iff]
      constructor
      · rintro ⟨h1, h2⟩
        exact ⟨⟨l, rfl, h1⟩, h2⟩
      · rintro ⟨⟨l2, hl2, hlt⟩, h2⟩
        injection hl2 with he
        subst he
        exact ⟨hlt, h2⟩
  · intro hne hpos
    unfold remove_outliers_ix
    rw [if_neg (by simp [hne]), if_pos hpos]
  · intro hne hpos
    constructor
    · intro hany
      unfold remove_outliers_ix
      rw [if_neg (by simp [hne]), if_neg (by simp [hpos]), if_pos hany]
    · intro hany
      unfold remove_outliers_ix
      rw [if_neg (by simp [hne]), if_neg (by simp [hpos]), if_neg (by simp [hany])]
  · rintro n rfl hi
    unfold ixKeep
    rw [List.get?_range hi]
    simp [List.length_range, hi]

theorem inFence_isSome (d : List NumCell) (i : Nat) (h : inFence d i = true) :
    ∃ v : ℚ, d.get? i = some (some v) := by
  unfold inFence at h
  rcases hs : iqrStats d with _ | ⟨q1, q3⟩ <;> rw [hs] at h
  · simp at h
  · rcases hg : d.get? i with _ | c <;> rw [hg] at h
    · simp at h
    · rcases c with _ | v
      · simp at h
      · exact ⟨v, rfl⟩

theorem mem_filterIdx {α : Type} (l : List α) (p : Nat → Bool) (x : α)
    (hx : x ∈ filterIdx l p) :
    ∃ i, i < l.length ∧ p i = true ∧ l.get? i = some x := by
  unfold filterIdx at hx
  obtain ⟨⟨i, y⟩, hmem, rfl⟩ := List.mem_map.mp hx
  have hfil := List.mem_filter.mp hmem
  have henum := List.mem_enum hfil.1
  refine ⟨i, henum.1, hfil.2, ?_⟩
  rw [List.get?_eq_get henum.1]
  exact congrArg some henum.2.symm

/-- C10 (implicit): after the Outlier Filter, a numeric column whose
pre-filter IQR is positive contains no missing value: a row with NaN in
such a column fails the fence comparison and is removed. -/
theorem outlier_filter_no_missing (t : Table) (name : String) (d : List NumCell)
    (hmem : Col.mk name (ColData.numeric d) ∈ t) (hiqr : nonzeroIQR d = true) :
    Col.mk name (ColData.numeric (filterIdx d (outlierMask t))) ∈ remove_outliers t
    ∧ ∀ x ∈ filterIdx d (outlierMask t), x.isSome = true := by
  constructor
  · rw [remove_outliers_eq_map]
    exact List.mem_map.mpr ⟨_, hmem, rfl⟩
  · intro x hx
    obtain ⟨i, hlen, hp, hget⟩ := mem_filterIdx d (outlierMask t) x hx
    have hd : d ∈ numericDatas t := by
      unfold numericDatas
      exact List.mem_filterMap.mpr ⟨_, hmem, rfl⟩
    have hf := (outlierMask_all_iff t i).mp hp d hd hiqr
    obtain ⟨v, hv⟩ := inFence_isSome d i hf
    rw [hget] at hv
    cases hv
    rfl

/-- C2 witness: the amended characterisation exercised on concrete inputs:
the positive-IQR branch and a fence-passing label-2 row on index [0, 2],
the error branch on a constant column, and the RangeIndex reduction. -/
theorem remove_outliers_index_spec_witness :
    ((numericDatas [⟨"A", ColData.numeric [some 1, some 100]⟩]).isEmpty = false
      ∧ (numericDatas [⟨"A", ColData.numeric [some 1, some 100]⟩]).any nonzeroIQR = true
      ∧ remove_outliers_ix [0, 2] [⟨"A", ColData.numeric [some 1, some 100]⟩]
          = Except.ok
            (filterIdx [0, 2] (ixKeep [0, 2] [⟨"A", ColData.numeric [some 1, some 100]⟩]),
              ([⟨"A", ColData.numeric [some 1, some 100]⟩] : Table).map
                fun c => ⟨c.name, filterColData
                  (ixKeep [0, 2] [⟨"A", ColData.numeric [some 1, some 100]⟩]) c.data⟩))
    ∧ ((numericDatas [⟨"A", ColData.numeric [some 5, some 5]⟩]).isEmpty = false
      ∧ (numericDatas [⟨"A", ColData.numeric [some 5, some 5]⟩]).any nonzeroIQR = false
      ∧ ([0, 2] : List Nat).any (fun l => decide (([0, 2] : List Nat).length ≤ l)) = true
      ∧ remove_outliers_ix [0, 2] [⟨"A", ColData.numeric [some 5, some 5]⟩]
          = Except.error "Unalignable boolean Series provided as indexer")
    ∧ (([0, 1] : List Nat) = List.range 2
      ∧ (ixKeep [0, 1] [⟨"A", ColData.numeric [some 1, some 100]⟩] 1 = true
          ↔ outlierMask [⟨"A", ColData.numeric [some 1, some 100]⟩] 1 = true)) := by
  refine ⟨⟨by decide, by with_unfolding_all decide, ?_⟩,
    ⟨by decide, by with_unfolding_all decide, by decide, ?_⟩, by decide, ?_⟩
  · exact (remove_outliers_index_spec [0, 2]
      [⟨"A", ColData.numeric [some 1, some 100]⟩] 0).2.1
      (by decide) (by with_unfolding_all decide)
  · exact ((remove_outliers_index_spec [0, 2]
      [⟨"A", ColData.numeric [some 5, some 5]⟩] 0).2.2.1
      (by decide) (by with_unfolding_all decide)).1 (by decide)
  · exact (remove_outliers_index_spec [0, 1]
      [⟨"A", ColData.numeric [some 1, some 100]⟩] 1).2.2.2 2 (by decide) (by decide)

/-- C2 counterexample: index [0, 2] (as left by a dedup that dropped the
middle row) with column values 1 and 100: the IQR is positive and both
values lie inside the fence [-48.5, 149.5], yet the row labelled 2 is
dropped, refuting the claimed iff; and with a constant column (IQR 0) on
the same index the stage raises instead of filtering. -/
theorem remove_outliers_index_counterexample :
    nonzeroIQR [some 1, some 100] = true
    ∧ inFence [some 1, some 100] 1 = true
    ∧ remove_outliers_ix [0, 2] [⟨"A", ColData.numeric [some 1, some 100]⟩]
        = Except.ok ([0], [⟨"A", ColData.numeric [some 1]⟩])
    ∧ remove_outliers_ix [0, 2] [⟨"A", ColData.numeric [some 5, some 5]⟩]
        = Except.error "Unalignable boolean Series provided as indexer" :=
  ⟨by with_unfolding_all decide, by with_unfolding_all decide,
    by with_unfolding_all decide, by with_unfolding_all decide⟩

/-- C10 witness: a column 0,1,2,3,NaN has positive IQR; the filtered column
is a member of the output and contains no missing value. -/
theorem outlier_filter_no_missing_witness :
    ((⟨"A", ColData.numeric [some 0, some 1, some 2, some 3, none]⟩ : Col)
        ∈ ([⟨"A", ColData.numeric [some 0, some 1, some 2, some 3, none]⟩] : Table))
    ∧ nonzeroIQR [some 0, some 1, some 2, some 3, none] = true
    ∧ (Col.mk "A" (ColData.numeric (filterIdx ([some 0, some 1, some 2, some 3, none] : List NumCell)
          (outlierMask [⟨"A", ColData.numeric [some 0, some 1, some 2, some 3, none]⟩])))
        ∈ remove_outliers [⟨"A", ColData.numeric [some 0, some 1, some 2, some 3, none]⟩]
      ∧ ∀ x ∈ filterIdx ([some 0, some 1, some 2, some 3, none] : List NumCell)
            (outlierMask [⟨"A", ColData.numeric [some 0, some 1, some 2, some 3, none]⟩]),
          x.isSome = true) := by
  refine ⟨by decide, by with_unfolding_all decide, ?_⟩
  exact outlier_filter_no_missing
    [⟨"A", ColData.numeric [some 0, some 1, some 2, some 3, none]⟩] "A"
    [some 0, some 1, some 2, some 3, none] (by decide) (by with_unfolding_all decide)

/-- First column with the given name (`df[name]`). -/
def findCol (t : Table) (n : String) : Option Col := t.find? fun c => c.name == n

/-- String view of a whole column under `astype(str)`. -/
def colStrs : ColData → List String
  | .numeric d => d.map cellStr
  | .text d => d.map strCellStr

/-- Does the list start with four decimal digits? -/
def isD4 : List Char → Bool
  | a :: b :: c :: d :: _ => a.isDigit && b.isDigit && c.isDigit && d.isDigit
  | _ => false

/-- Numeric value of the first four characters (digits). -/
def val4 : List Char → Nat
  | a :: b :: c :: d :: _ =>
      (((a.toNat - 48) * 10 + (b.toNat - 48)) * 10 + (c.toNat - 48)) * 10 + (d.toNat - 48)
  | _ => 0

/-- Leftmost match of the regex `(\d{4})` (line 94). -/
def extract4Go : List Char → Option Nat
  | [] => none
  | c :: rest => if isD4 (c :: rest) then some (val4 (c :: rest)) else extract4Go rest

/-- First 4-digit run anywhere in the string. -/
def extract4 (s : String) : Option Nat := extract4Go s.toList

/-- Leftmost match of the regex `\((\d{4})` (line 99). -/
def parenGo : List Char → Option Nat
  | [] => none
  | c :: rest => if c == '(' && isD4 rest then some (val4 rest) else parenGo rest

/-- First 4-digit run immediately following an opening parenthesis: the
value line 99 computes from each MOVIES cell (and then discards, see
`extract_year_info`). -/
def parenYear (s : String) : Option Nat := parenGo s.toList

/-- Primary extraction (lines 94-95): first 4-digit run of the year cell's
text, coerced to numeric; failure yields NaN. -/
def primYears (ys : List String) : List NumCell :=
  ys.map fun s => (extract4 s).map fun y => (y : ℚ)

/-- `df[name] = col`: replace an existing column of that name, else append
the new column at the end (pandas column assignment). -/
def setCol (t : Table) (c : Col) : Table :=
  if t.any (fun x => x.name == c.name) then
    t.map fun x => if x.name == c.name then c else x
  else t ++ [c]

/-- Stage `extract_year_info` (lines 89-103).  Line 94 assigns the primary
extraction (first 4-digit run of the YEAR cell's text, `primYears`).  For
the rows still missing, line 99 computes the parenthesised year of each
MOVIES cell (`str.extract(r'\((\d{4})')`, modelled by `parenYear`) — but
`str.extract` with one group and the default `expand=True` returns a
one-column DataFrame whose column is labelled `0`, and assigning a
DataFrame through `df.loc[missing_years, 'YEAR_CLEANED']` aligns by
column name: `'YEAR_CLEANED'` is not among the value's columns, so pandas
silently writes NaN into the selected rows and the computed fallback
values are discarded.  The derived column therefore always equals the
primary extraction (the selected rows were already NaN); accessing the
MOVIES column when it is absent still raises a KeyError, so the
conditional access of line 99 is kept. -/
def extract_year_info (t : Table) : Except String Table :=
  match findCol t "YEAR" with
  | none => Except.ok t
  | some cy =>
      let ys := colStrs cy.data
      if (primYears ys).any Option.isNone then
        match findCol t "MOVIES" with
        | none => Except.error "KeyError: MOVIES"
        | some _ =>
            Except.ok (setCol t ⟨"YEAR_CLEANED", ColData.numeric (primYears ys)⟩)
      else Except.ok (setCol t ⟨"YEAR_CLEANED", ColData.numeric (primYears ys)⟩)

theorem find?_map_replace (t : Table) (c : Col) :
    (t.map fun x => if x.name == c.name then c else x).find? (fun x => x.name == c.name)
      = if t.any (fun x => x.name == c.name) then some c else none := by
  induction t with
  | nil => rfl
  | cons a t ih =>
    by_cases h : (a.name == c.name) = true
    · rw [List.map_cons, List.any_cons, if_pos h, h]
      have hfind : List.find? (fun x => x.name == c.name)
          (c :: List.map (fun x => if (x.name == c.name) = true then c else x) t)
            = some c := by
        apply List.find?_cons_of_pos
        simp
      rw [hfind]
      simp
    · have hh : (a.name == c.name) = false := by
        simpa using h
      rw [List.map_cons, List.any_cons, if_neg h, hh]
      have hfind : List.find? (fun x => x.name == c.name)
          (a :: List.map (fun x => if (x.name == c.name) = true then c else x) t)
            = List.find? (fun x => x.name == c.name)
                (List.map (fun x => if (x.name == c.name) = true then c else x) t) := by
        apply List.find?_cons_of_neg
        simpa using h
      rw [hfind]
      simpa using ih

theorem findCol_setCol (t : Table) (c : Col) : findCol (setCol t c) c.name = some c := by
  unfold setCol findCol
  split
  · rename_i h
    rw [find?_map_replace, if_pos h]
  · rename_i h
    rw [List.find?_append]
    have hn : t.find? (fun x => x.name == c.name) = none := by
      rw [List.find?_eq_none]
      intro x hx hbx
      exact h (List.any_eq_true.mpr ⟨x, hx, hbx⟩)
    rw [hn]
    simp [List.find?]

/-- C5 (code bug): the primary extraction works, but the MOVIES fallback of
line 99 never fills anything: the `str.extract` result is a DataFrame with
column label 0, and the `.loc` assignment aligns by column name and writes
NaN into the missing rows.  Part one: whenever the stage succeeds, the
derived YEAR_CLEANED column equals the primary extraction alone.  Part
two: YEAR "(2015)" yields 2015 as claimed.  Part three: YEAR "N/A" with
MOVIES "Movie X (2016)" leaves the derived year missing even though the
fallback regex finds 2016 in the title — the claim's fallback scenario is
false of the code. -/
theorem extract_year_fallback_noop :
    (∀ (t t2 : Table) (cy : Col), findCol t "YEAR" = some cy →
      extract_year_info t = Except.ok t2 →
      findCol t2 "YEAR_CLEANED"
        = some ⟨"YEAR_CLEANED", ColData.numeric (primYears (colStrs cy.data))⟩)
    ∧ extract_year_info [⟨"YEAR", ColData.text [some "(2015)"]⟩,
        ⟨"MOVIES", ColData.text [some "Movie X (2016)"]⟩]
      = Except.ok [⟨"YEAR", ColData.text [some "(2015)"]⟩,
          ⟨"MOVIES", ColData.text [some "Movie X (2016)"]⟩,
          ⟨"YEAR_CLEANED", ColData.numeric [some 2015]⟩]
    ∧ parenYear "Movie X (2016)" = some 2016
    ∧ extract_year_info [⟨"YEAR", ColData.text [some "N/A"]⟩,
        ⟨"MOVIES", ColData.text [some "Movie X (2016)"]⟩]
      = Except.ok [⟨"YEAR", ColData.text [some "N/A"]⟩,
          ⟨"MOVIES", ColData.text [some "Movie X (2016)"]⟩,
          ⟨"YEAR_CLEANED", ColData.numeric [none]⟩] := by
  refine ⟨?_, by with_unfolding_all decide, by decide, by with_unfolding_all decide⟩
  intro t t2 cy hy hok
  unfold extract_year_info at hok
  rw [hy] at hok
  dsimp only at hok
  split at hok
  · split at hok
    · cases hok
    · cases hok
      exact findCol_setCol t _
  · cases hok
    exact findCol_setCol t _

/-- C5 witness: the general part of `extract_year_fallback_noop`
instantiated at the fallback-scenario table. -/
theorem extract_year_fallback_noop_witness :
    findCol [⟨"YEAR", ColData.text [some "N/A"]⟩,
        ⟨"MOVIES", ColData.text [some "Movie X (2016)"]⟩] "YEAR"
      = some ⟨"YEAR", ColData.text [some "N/A"]⟩
    ∧ extract_year_info [⟨"YEAR", ColData.text [some "N/A"]⟩,
        ⟨"MOVIES", ColData.text [some "Movie X (2016)"]⟩]
      = Except.ok [⟨"YEAR", ColData.text [some "N/A"]⟩,
          ⟨"MOVIES", ColData.text [some "Movie X (2016)"]⟩,
          ⟨"YEAR_CLEANED", ColData.numeric [none]⟩]
    ∧ findCol [⟨"YEAR", ColData.text [some "N/A"]⟩,
          ⟨"MOVIES", ColData.text [some "Movie X (2016)"]⟩,
          ⟨"YEAR_CLEANED", ColData.numeric [none]⟩] "YEAR_CLEANED"
      = some ⟨"YEAR_CLEANED", ColData.numeric (primYears (colStrs
          (ColData.text [some "N/A"])))⟩ :=
  ⟨by decide, by with_unfolding_all decide,
    extract_year_fallback_noop.1
      [⟨"YEAR", ColData.text [some "N/A"]⟩,
        ⟨"MOVIES", ColData.text [some "Movie X (2016)"]⟩]
      [⟨"YEAR", ColData.text [some "N/A"]⟩,
        ⟨"MOVIES", ColData.text [some "Movie X (2016)"]⟩,
        ⟨"YEAR_CLEANED", ColData.numeric [none]⟩]
      ⟨"YEAR", ColData.text [some "N/A"]⟩
      (by decide) (by with_unfolding_all decide)⟩

/-- `Series.nunique()`: number of distinct observed values (NaN excluded). -/
def nuniqueT (d : List StrCell) : Nat := ((d.filterMap id).dedup).length

/-- `astype(str)` view of a text column; NaN renders as "nan". -/
def strsOf (d : List StrCell) : List String := d.map strCellStr

/-- LabelEncoder classes: the distinct strings of the column in ascending
order (`numpy.unique` sorts). -/
def classesOf (d : List StrCell) : List String :=
  ((strsOf d).dedup).insertionSort (· ≤ ·)

/-- `LabelEncoder.fit_transform(col.astype(str))`: each value becomes the
index of its class, a nonnegative integer code; the assignment is a pure
function of the column's values, hence deterministic across runs. -/
def labelEncode (d : List StrCell) : List NumCell :=
  (strsOf d).map fun s => some (((classesOf d).indexOf s : ℕ) : ℚ)

/-- Per-column action of `encode_categorical` (lines 110-118): numeric
columns pass through, MOVIES is exempt, a text column with more than one
distinct value is integer-encoded, and a text column with at most one
distinct value is dropped. -/
def encodeCol (c : Col) : Option Col :=
  match c.data with
  | .numeric _ => some c
  | .text d =>
      if c.name == "MOVIES" then some c
      else if 1 < nuniqueT d then some ⟨c.name, ColData.numeric (labelEncode d)⟩
      else none

/-- Stage `encode_categorical` (lines 106-121). -/
def encode_categorical (t : Table) : Table := t.filterMap encodeCol

theorem encodeCol_name (a c : Col) (h : encodeCol a = some c) : c.name = a.name := by
  rcases a with ⟨an, ad⟩
  cases ad with
  | numeric d =>
    unfold encodeCol at h
    cases h
    rfl
  | text d =>
    unfold encodeCol at h
    dsimp only at h
    split at h
    · cases h
      rfl
    · split at h
      · cases h
        rfl
      · cases h

/-- C6: every text column other than MOVIES is dropped when it has at most
one distinct observed value and is otherwise replaced by its deterministic
integer encoding (codes are indices into the sorted list of distinct
values); e.g. a column ["A","A","A"] is dropped, not encoded. -/
theorem encode_categorical_spec :
    (∀ (t : Table) (name : String) (d : List StrCell),
      (t.map Col.name).Nodup →
      Col.mk name (ColData.text d) ∈ t → name ≠ "MOVIES" →
      ((nuniqueT d ≤ 1 → ∀ c ∈ encode_categorical t, c.name ≠ name)
        ∧ (1 < nuniqueT d →
            Col.mk name (ColData.numeric (labelEncode d)) ∈ encode_categorical t)))
    ∧ encode_categorical [⟨"GENRE", ColData.text [some "A", some "A", some "A"]⟩] = [] := by
  constructor
  · intro t name d hnodup hmem hnm
    have hbeq : (name == "MOVIES") = false := by
      simpa using hnm
    constructor
    · intro hle c hc hceq
      obtain ⟨a, hat, hfa⟩ := List.mem_filterMap.mp hc
      have hname : a.name = name := by
        rw [← encodeCol_name a c hfa, hceq]
      have haeq : a = Col.mk name (ColData.text d) := by
        apply List.inj_on_of_nodup_map hnodup hat hmem
        rw [hname]
      rw [haeq] at hfa
      unfold encodeCol at hfa
      dsimp only at hfa
      rw [if_neg (by simp [hbeq])] at hfa
      rw [if_neg (by omega)] at hfa
      cases hfa
    · intro hlt
      apply List.mem_filterMap.mpr
      refine ⟨Col.mk name (ColData.text d), hmem, ?_⟩
      unfold encodeCol
      dsimp only
      rw [if_neg (by simp [hbeq]), if_pos hlt]
  · decide

/-- C6 witness: the general part of `encode_categorical_spec` instantiated
at a two-column table whose GENRE column is constant. -/
theorem encode_categorical_spec_witness :
    (([⟨"MOVIES", ColData.text [some "m1", some "m2", some "m3"]⟩,
        ⟨"GENRE", ColData.text [some "A", some "A", some "A"]⟩] : Table).map Col.name).Nodup
    ∧ (⟨"GENRE", ColData.text [some "A", some "A", some "A"]⟩ : Col)
        ∈ ([⟨"MOVIES", ColData.text [some "m1", some "m2", some "m3"]⟩,
            ⟨"GENRE", ColData.text [some "A", some "A", some "A"]⟩] : Table)
    ∧ ((nuniqueT [some "A", some "A", some "A"] ≤ 1 →
          ∀ c ∈ encode_categorical [⟨"MOVIES", ColData.text [some "m1", some "m2", some "m3"]⟩,
              ⟨"GENRE", ColData.text [some "A", some "A", some "A"]⟩], c.name ≠ "GENRE")
        ∧ (1 < nuniqueT [some "A", some "A", some "A"] →
            Col.mk "GENRE" (ColData.numeric (labelEncode [some "A", some "A", some "A"]))
              ∈ encode_categorical [⟨"MOVIES", ColData.text [some "m1", some "m2", some "m3"]⟩,
                  ⟨"GENRE", ColData.text [some "A", some "A", some "A"]⟩])) :=
  ⟨by decide, by decide,
    encode_categorical_spec.1
      [⟨"MOVIES", ColData.text [some "m1", some "m2", some "m3"]⟩,
        ⟨"GENRE", ColData.text [some "A", some "A", some "A"]⟩]
      "GENRE" [some "A", some "A", some "A"] (by decide) (by decide) (by decide)⟩

/-- Real-valued mean of a column (`X.mean()`); Lean's division by zero
makes the mean of an empty list 0, a value never used by the scaler. -/
noncomputable def meanR (l : List ℝ) : ℝ := l.sum / l.length

/-- Population variance, StandardScaler's `ddof = 0`. -/
noncomputable def varP (l : List ℝ) : ℝ :=
  ((l.map fun x => (x - meanR l) ^ 2).sum) / l.length

/-- sklearn `_handle_zeros_in_scale`: a zero standard deviation is replaced
by 1 so that scaling never divides by zero. -/
noncomputable def scaleOf (l : List ℝ) : ℝ :=
  if Real.sqrt (varP l) = 0 then 1 else Real.sqrt (varP l)

/-- StandardScaler on one column: mean and scale are fitted on the observed
values (NaNs disregarded), and the transform maintains NaNs (sklearn's
documented NaN handling). -/
noncomputable def stdScaleO (d : List (Option ℝ)) : List (Option ℝ) :=
  d.map fun c => c.map fun x =>
    (x - meanR (d.filterMap id)) / scaleOf (d.filterMap id)

/-- Names of the columns the Feature Scaler standardises (line 130):
numeric dtype and name not ending in "_ENCODED". -/
def colsToScale (t : Table) : List String :=
  t.filterMap fun c =>
    match c.data with
    | .numeric _ => if c.name.endsWith "_ENCODED" then none else some c.name
    | .text _ => none

/-- Real view of a numeric column. -/
noncomputable def toR (d : List NumCell) : List (Option ℝ) :=
  d.map fun c => Option.map (fun q : ℚ => (q : ℝ)) c

/-- Real-valued column payload of the scaler's output table. -/
inductive RColData where
  | numeric : List (Option ℝ) → RColData
  | text : List StrCell → RColData

/-- A named column of the scaler's output table. -/
structure RCol where
  name : String
  data : RColData

/-- The scaler's output table. -/
abbrev RTable := List RCol

/-- Per-column action of `scale_features`: standardise numeric columns not
ending in "_ENCODED"; all other columns pass through. -/
noncomputable def scaleCol (c : Col) : RCol :=
  match c.data with
  | .numeric d =>
      ⟨c.name, RColData.numeric
        (if c.name.endsWith "_ENCODED" then toR d else stdScaleO (toR d))⟩
  | .text d => ⟨c.name, RColData.text d⟩

/-- Stage `scale_features` (lines 124-137): sklearn's fit raises when there
are columns to scale but zero rows; otherwise every selected column is
standardised. -/
noncomputable def scale_features (t : Table) : Except String RTable :=
  if nRows t = 0 ∧ colsToScale t ≠ [] then
    Except.error "Found array with 0 sample(s)"
  else Except.ok (t.map scaleCol)

theorem sum_map_sub (l : List ℝ) (f g : ℝ → ℝ) :
    (l.map fun x => f x - g x).sum = (l.map f).sum - (l.map g).sum := by
  induction l with
  | nil => simp
  | cons a l ih =>
    simp only [List.map_cons, List.sum_cons, ih]
    ring

theorem sum_map_div (l : List ℝ) (f : ℝ → ℝ) (c : ℝ) :
    (l.map fun x => f x / c).sum = (l.map f).sum / c := by
  induction l with
  | nil => simp
  | cons a l ih =>
    simp only [List.map_cons, List.sum_cons, ih]
    ring

theorem sum_map_const (l : List ℝ) (c : ℝ) :
    (l.map fun _ => c).sum = l.length * c := by
  induction l with
  | nil => simp
  | cons a l ih =>
    simp only [List.map_cons, List.sum_cons, ih, List.length_cons]
    push_cast
    ring

theorem sum_sub_mean (l : List ℝ) (h : l ≠ []) :
    (l.map fun x => x - meanR l).sum = 0 := by
  have hn : (l.length : ℝ) ≠ 0 := by
    simpa using fun hl => h (List.length_eq_zero.mp hl)
  have := sum_map_sub l id (fun _ => meanR l)
  simp only [List.map_id] at this
  rw [show (l.map fun x => x - meanR l) = (l.map fun x => id x - (fun _ => meanR l) x)
    from rfl, this, sum_map_const]
  unfold meanR
  field_simp

theorem sum_sq_zero (l : List ℝ) (hpos : ∀ x ∈ l, 0 ≤ x) (hsum : l.sum = 0) :
    ∀ x ∈ l, x = 0 := by
  induction l with
  | nil => intro x hx; cases hx
  | cons a l ih =>
    intro x hx
    rw [List.sum_cons] at hsum
    have ha : 0 ≤ a := hpos a (List.mem_cons_self a l)
    have hl : 0 ≤ l.sum := List.sum_nonneg fun y hy => hpos y (List.mem_cons_of_mem a hy)
    have ha0 : a = 0 := by linarith
    have hl0 : l.sum = 0 := by linarith
    rcases List.mem_cons.mp hx with rfl | hx2
    · exact ha0
    · exact ih (fun y hy => hpos y (List.mem_cons_of_mem a hy)) hl0 x hx2

theorem varP_nonneg (l : List ℝ) : 0 ≤ varP l := by
  unfold varP
  apply div_nonneg
  · exact List.sum_nonneg fun y hy => by
      obtain ⟨x, _, rfl⟩ := List.mem_map.mp hy
      positivity
  · positivity

theorem filterMap_id_map_map {α β : Type} (d : List (Option α)) (f : α → β) :
    (d.map fun c => c.map f).filterMap id = (d.filterMap id).map f := by
  induction d with
  | nil => rfl
  | cons c d ih =>
    cases c with
    | none => simpa using ih
    | some x => simpa using ih

theorem filterMap_id_nil {α : Type} (d : List (Option α)) (h : d.filterMap id = []) :
    ∀ c ∈ d, c = none := by
  intro c hc
  cases c with
  | none => rfl
  | some x =>
    exfalso
    have : x ∈ d.filterMap id := List.mem_filterMap.mpr ⟨some x, hc, rfl⟩
    rw [h] at this
    exact absurd this (List.not_mem_nil x)

theorem sum_map_sub_div (l : List ℝ) (c s : ℝ) :
    (l.map fun x => (x - c) / s).sum = (l.sum - l.length * c) / s := by
  induction l with
  | nil => simp
  | cons a l ih =>
    simp only [List.map_cons, List.sum_cons, ih, List.length_cons]
    push_cast
    ring

theorem sum_map_div_sq (l : List ℝ) (c s : ℝ) :
    (l.map fun x => (x - c) ^ 2 / s ^ 2).sum = (l.map fun x => (x - c) ^ 2).sum / s ^ 2 := by
  induction l with
  | nil => simp
  | cons a l ih =>
    simp only [List.map_cons, List.sum_cons, ih]
    ring

theorem meanR_scaled (l : List ℝ) (s : ℝ) (h : l ≠ []) :
    meanR (l.map fun x => (x - meanR l) / s) = 0 := by
  have hlen : (l.length : ℝ) ≠ 0 := by
    simpa using fun hl => h (List.length_eq_zero.mp hl)
  unfold meanR
  rw [sum_map_sub_div, List.length_map]
  have hc : (l.length : ℝ) * (l.sum / l.length) = l.sum := by
    field_simp
  rw [hc, sub_self, zero_div, zero_div]

theorem varP_sum_eq (l : List ℝ) (h : (l.length : ℝ) ≠ 0) :
    (l.map fun x => (x - meanR l) ^ 2).sum = varP l * l.length := by
  unfold varP
  rw [div_mul_cancel₀ _ h]

theorem varP_scaled (l : List ℝ) (s : ℝ) (h : l ≠ []) (hs : s ≠ 0)
    (hv : s ^ 2 = varP l) :
    varP (l.map fun x => (x - meanR l) / s) = 1 := by
  have hlen : (l.length : ℝ) ≠ 0 := by
    simpa using fun hl => h (List.length_eq_zero.mp hl)
  have hm := meanR_scaled l s h
  unfold varP
  rw [hm]
  have h2 : ((l.map fun x => (x - meanR l) / s).map fun y => (y - 0) ^ 2)
      = l.map fun x => (x - meanR l) ^ 2 / s ^ 2 := by
    rw [List.map_map]
    apply List.map_congr_left
    intro x _
    simp only [Function.comp]
    rw [sub_zero, div_pow]
  rw [h2, sum_map_div_sq, varP_sum_eq l hlen, ← hv, List.length_map]
  have h3 : s ^ 2 * (l.length : ℝ) / s ^ 2 = (l.length : ℝ) := by
    rw [mul_comm, mul_div_assoc, div_self (pow_ne_zero 2 hs), mul_one]
  rw [h3, div_self hlen]

/-- C7: scaling a zero-variance column does not divide by zero and yields a
uniformly zero column (NaNs maintained); scaling a nonzero-variance column
yields exactly mean 0 and standard deviation 1 over its observed values. -/
theorem scale_zero_std_and_standardize (d : List (Option ℝ)) :
    (varP (d.filterMap id) = 0 →
      stdScaleO d = d.map fun c => c.map fun _ => (0 : ℝ))
    ∧ (d.filterMap id ≠ [] → varP (d.filterMap id) ≠ 0 →
        meanR ((stdScaleO d).filterMap id) = 0
        ∧ Real.sqrt (varP ((stdScaleO d).filterMap id)) = 1) := by
  constructor
  · intro hv0
    unfold stdScaleO
    apply List.map_congr_left
    intro c hc
    cases c with
    | none => rfl
    | some x =>
      simp only [Option.map_some']
      congr 1
      have hx : x ∈ d.filterMap id := List.mem_filterMap.mpr ⟨some x, hc, rfl⟩
      have hne : d.filterMap id ≠ [] := by
        intro h0
        rw [h0] at hx
        exact absurd hx (List.not_mem_nil x)
      have hlen : ((d.filterMap id).length : ℝ) ≠ 0 := by
        simpa using fun hl => hne (List.length_eq_zero.mp hl)
      have hsum : ((d.filterMap id).map fun y => (y - meanR (d.filterMap id)) ^ 2).sum = 0 := by
        unfold varP at hv0
        rcases div_eq_zero_iff.mp hv0 with h | h
        · exact h
        · exact absurd h hlen
      have hx2 : (x - meanR (d.filterMap id)) ^ 2 = 0 := by
        refine sum_sq_zero _ ?_ hsum _ (List.mem_map.mpr ⟨x, hx, rfl⟩)
        intro y hy
        obtain ⟨z, _, rfl⟩ := List.mem_map.mp hy
        positivity
      have hx0 : x - meanR (d.filterMap id) = 0 := by
        exact pow_eq_zero_iff two_ne_zero |>.mp hx2
      rw [hx0, zero_div]
  · intro hne hv
    have hv0 : 0 < varP (d.filterMap id) :=
      lt_of_le_of_ne (varP_nonneg _) (Ne.symm hv)
    have hs0 : 0 < Real.sqrt (varP (d.filterMap id)) := Real.sqrt_pos.mpr hv0
    have hsne : Real.sqrt (varP (d.filterMap id)) ≠ 0 := ne_of_gt hs0
    have hscale : scaleOf (d.filterMap id) = Real.sqrt (varP (d.filterMap id)) := by
      unfold scaleOf
      rw [if_neg hsne]
    have hflt : (stdScaleO d).filterMap id
        = (d.filterMap id).map fun x =>
            (x - meanR (d.filterMap id)) / Real.sqrt (varP (d.filterMap id)) := by
      unfold stdScaleO
      rw [filterMap_id_map_map]
      apply List.map_congr_left
      intro x _
      rw [hscale]
    refine ⟨?_, ?_⟩
    · rw [hflt]
      exact meanR_scaled _ _ hne
    · rw [hflt, varP_scaled _ _ hne hsne (Real.sq_sqrt hv0.le), Real.sqrt_one]

/-- C7 witness: the column [0, 2] has variance 1; after scaling, the
observed values have mean 0 and standard deviation 1. -/
theorem scale_zero_std_and_standardize_witness :
    (([some (0:ℝ), some 2] : List (Option ℝ)).filterMap id ≠ [])
    ∧ varP (([some (0:ℝ), some 2] : List (Option ℝ)).filterMap id) ≠ 0
    ∧ (meanR ((stdScaleO [some (0:ℝ), some 2]).filterMap id) = 0
        ∧ Real.sqrt (varP ((stdScaleO [some (0:ℝ), some 2]).filterMap id)) = 1) := by
  have hne : (([some (0:ℝ), some 2] : List (Option ℝ)).filterMap id ≠ []) := by
    simp
  have hval : varP (([some (0:ℝ), some 2] : List (Option ℝ)).filterMap id) = 1 := by
    have hl : (([some (0:ℝ), some 2] : List (Option ℝ)).filterMap id) = [0, 2] := by
      simp
    rw [hl]
    unfold varP meanR
    norm_num
  refine ⟨hne, by rw [hval]; norm_num, ?_⟩
  exact (scale_zero_std_and_standardize [some (0:ℝ), some 2]).2 hne (by rw [hval]; norm_num)

/-- Lookup of a numeric column's data in the scaler's output. -/
noncomputable def rcolNumData (r : Except String RTable) (n : String) :
    Option (List (Option ℝ)) :=
  match r with
  | .error _ => none
  | .ok t =>
      match t.find? fun c => c.name == n with
      | some ⟨_, RColData.numeric dd⟩ => some dd
      | _ => none

/-- C3 (amended): the Feature Scaler excludes exactly the numeric columns
whose names end in "_ENCODED"; the Categorical Encoder keeps column names,
so every column it integer-encodes (unless its original name already ended
in "_ENCODED") is among the columns the scaler standardises. -/
theorem scaler_excludes_only_suffix (t : Table) (name : String) (d : List StrCell)
    (hmem : Col.mk name (ColData.text d) ∈ t) (hnm : name ≠ "MOVIES")
    (hlt : 1 < nuniqueT d) (hsuf : name.endsWith "_ENCODED" = false) :
    name ∈ colsToScale (encode_categorical t) := by
  have hbeq : (name == "MOVIES") = false := by
    simpa using hnm
  have henc : Col.mk name (ColData.numeric (labelEncode d)) ∈ encode_categorical t := by
    apply List.mem_filterMap.mpr
    refine ⟨Col.mk name (ColData.text d), hmem, ?_⟩
    unfold encodeCol
    dsimp only
    rw [if_neg (by simp [hbeq]), if_pos hlt]
  unfold colsToScale
  apply List.mem_filterMap.mpr
  refine ⟨Col.mk name (ColData.numeric (labelEncode d)), henc, ?_⟩
  dsimp only
  rw [if_neg (by simp [hsuf])]

/-- C3 witness: the encoded GENRE column of a concrete table is among the
scaler's columns. -/
theorem scaler_excludes_only_suffix_witness :
    ((⟨"GENRE", ColData.text [some "B", some "A"]⟩ : Col)
        ∈ ([⟨"MOVIES", ColData.text [some "a", some "b"]⟩,
            ⟨"GENRE", ColData.text [some "B", some "A"]⟩] : Table))
    ∧ "GENRE" ≠ "MOVIES"
    ∧ 1 < nuniqueT [some "B", some "A"]
    ∧ "GENRE".endsWith "_ENCODED" = false
    ∧ "GENRE" ∈ colsToScale (encode_categorical
        [⟨"MOVIES", ColData.text [some "a", some "b"]⟩,
          ⟨"GENRE", ColData.text [some "B", some "A"]⟩]) :=
  ⟨by decide, by decide, by decide, by decide,
    scaler_excludes_only_suffix
      [⟨"MOVIES", ColData.text [some "a", some "b"]⟩,
        ⟨"GENRE", ColData.text [some "B", some "A"]⟩]
      "GENRE" [some "B", some "A"] (by decide) (by decide) (by decide) (by decide)⟩

/-- C3 counterexample: in a concrete table the encoder turns GENRE ["B","A"]
into the integer codes [1, 0]; GENRE does not end in "_ENCODED", so the
scaler does not exclude it, and its values change to [1, -1].  This
refutes the claim that integer-encoded categorical columns are excluded
from scaling with values unchanged. -/
theorem scale_encoded_counterexample :
    "GENRE" ∈ colsToScale (encode_categorical
        [⟨"MOVIES", ColData.text [some "a", some "b"]⟩,
          ⟨"GENRE", ColData.text [some "B", some "A"]⟩])
    ∧ encode_categorical [⟨"MOVIES", ColData.text [some "a", some "b"]⟩,
          ⟨"GENRE", ColData.text [some "B", some "A"]⟩]
        = [⟨"MOVIES", ColData.text [some "a", some "b"]⟩,
            ⟨"GENRE", ColData.numeric [some 1, some 0]⟩]
    ∧ rcolNumData (scale_features [⟨"MOVIES", ColData.text [some "a", some "b"]⟩,
          ⟨"GENRE", ColData.numeric [some 1, some 0]⟩]) "GENRE"
        = some [some 1, some (-1)]
    ∧ stdScaleO (toR [some (1:ℚ), some 0]) ≠ toR [some (1:ℚ), some 0] := by
  have hsqrt : Real.sqrt (1/4) = 1/2 := by
    rw [show (1/4 : ℝ) = (1/2)^2 by norm_num, Real.sqrt_sq (by norm_num : (0:ℝ) ≤ 1/2)]
  have h1 : (toR [some (1:ℚ), some 0]).filterMap id = [(1:ℝ), 0] := by
    simp [toR]
  have hm : meanR [(1:ℝ), 0] = 1/2 := by
    unfold meanR
    norm_num
  have hv : varP [(1:ℝ), 0] = 1/4 := by
    unfold varP
    rw [hm]
    norm_num
  have hs : scaleOf [(1:ℝ), 0] = 1/2 := by
    unfold scaleOf
    rw [hv, hsqrt]
    norm_num
  have hscale : stdScaleO (toR [some (1:ℚ), some 0]) = [some 1, some (-1)] := by
    unfold stdScaleO
    rw [h1, hm, hs]
    norm_num [toR]
  refine ⟨by with_unfolding_all decide, by with_unfolding_all decide, ?_, ?_⟩
  · unfold scale_features
    rw [if_neg (by decide)]
    unfold rcolNumData
    simp only [List.map_cons, List.map_nil]
    rw [show scaleCol ⟨"MOVIES", ColData.text [some "a", some "b"]⟩
        = ⟨"MOVIES", RColData.text [some "a", some "b"]⟩ from rfl]
    rw [show scaleCol ⟨"GENRE", ColData.numeric [some 1, some 0]⟩
        = ⟨"GENRE", RColData.numeric (stdScaleO (toR [some (1:ℚ), some 0]))⟩ by
      unfold scaleCol
      dsimp only
      rw [if_neg (by decide)]]
    rw [hscale]
    rfl
  · rw [hscale]
    have h2 : toR [some (1:ℚ), some 0] = [some (1:ℝ), some 0] := by
      norm_num [toR]
    rw [h2]
    intro h
    simp only [List.cons.injEq, Option.some.injEq] at h
    norm_num at h

/-- A cell of a row, with its column kind (for row-equality in dedup;
pandas `duplicated()` treats NaN as equal to NaN). -/
inductive CellV where
  | num : NumCell → CellV
  | str : StrCell → CellV
deriving DecidableEq

/-- Cell of a column at a row index. -/
def cellAt : ColData → Nat → Option CellV
  | .numeric d, i => (d.get? i).map CellV.num
  | .text d, i => (d.get? i).map CellV.str

/-- Row `i` of a table. -/
def rowAt (t : Table) (i : Nat) : List (Option CellV) :=
  t.map fun c => cellAt c.data i

/-- Keep-first mask of `df.drop_duplicates()`: row `i` is kept iff no
earlier row equals it across all columns. -/
def keepMask (t : Table) (i : Nat) : Bool :=
  (List.range i).all fun j => decide (rowAt t j ≠ rowAt t i)

/-- Stage `remove_duplicates` (lines 54-61). -/
def remove_duplicates (t : Table) : Table :=
  t.map fun c => ⟨c.name, filterColData (keepMask t) c.data⟩

/-- The whole stage sequence of `main` after loading (lines 168-174):
column normalisation, missing-value handling, year extraction,
deduplication, outlier removal, categorical encoding, scaling.
`read_csv` gives the default RangeIndex 0..n-1; the column-level stages
preserve it; `drop_duplicates` keeps the labels of the kept rows without
resetting them, so the outlier stage receives the possibly-gapped labels
`filterIdx (range n) keepMask`; the later stages assign ndarrays
positionally and `to_csv(index=False)` discards the index, so only the
outlier stage consumes it. -/
noncomputable def runPipeline (t : Table) : Except String RTable :=
  match extract_year_info (handle_missing_values (clean_column_names t)) with
  | .error e => .error e
  | .ok t3 =>
      match remove_outliers_ix (filterIdx (List.range (nRows t3)) (keepMask t3))
          (remove_duplicates t3) with
      | .error e => .error e
      | .ok (_, t5) => scale_features (encode_categorical t5)

/-- `load_data` (lines 8-15): the filesystem is a partial map from paths to
tables; a missing path raises before anything else happens. -/
def load_data (fs : String → Option Table) (path : String) : Except String Table :=
  match fs path with
  | none => Except.error ("File not found: " ++ path)
  | some df => Except.ok df

/-- `main` (lines 161-183): load, run the pipeline, and only on success
write the output file; the returned pair stands for the single
`save_cleaned_data` effect.  Any error aborts the run unhandled and
nothing is written. -/
noncomputable def mainRun (fs : String → Option Table) (input : String) :
    Except String (String × RTable) :=
  match load_data fs input with
  | .error e => .error e
  | .ok df =>
      match runPipeline df with
      | .error e => .error e
      | .ok out => .ok ("cleaned_movies_data.csv", out)

/-- C8: loading a non-existent source raises the not-found error before any
stage runs and nothing is written; conversely an output is written only
when the entire pipeline has completed successfully. -/
theorem loader_aborts_before_stages :
    (∀ (fs : String → Option Table) (input : String), fs input = none →
      mainRun fs input = Except.error ("File not found: " ++ input))
    ∧ (∀ (fs : String → Option Table) (input : String) (w : String × RTable),
        mainRun fs input = Except.ok w →
        ∃ df, fs input = some df ∧ runPipeline df = Except.ok w.2
          ∧ w.1 = "cleaned_movies_data.csv") := by
  constructor
  · intro fs input h
    unfold mainRun load_data
    rw [h]
  · intro fs input w h
    unfold mainRun load_data at h
    rcases hfs : fs input with _ | df <;> rw [hfs] at h
    · cases h
    · dsimp only at h
      rcases hrun : runPipeline df with e | out <;> rw [hrun] at h
      · cases h
      · cases h
        exact ⟨df, rfl, by rw [hrun], rfl⟩

/-- C8 witness: part one at an empty filesystem; part two at a filesystem
holding an empty table, on which the pipeline succeeds end to end. -/
theorem loader_aborts_before_stages_witness :
    ((fun _ : String => (none : Option Table)) "movies.csv" = none
      ∧ mainRun (fun _ => none) "movies.csv"
          = Except.error ("File not found: " ++ "movies.csv"))
    ∧ (mainRun (fun _ => some ([] : Table)) "movies.csv"
        = Except.ok ("cleaned_movies_data.csv", ([] : RTable))
      ∧ ∃ df, (fun _ : String => some ([] : Table)) "movies.csv" = some df
          ∧ runPipeline df
              = Except.ok (("cleaned_movies_data.csv", ([] : RTable)) : String × RTable).2
          ∧ (("cleaned_movies_data.csv", ([] : RTable)) : String × RTable).1
              = "cleaned_movies_data.csv") := by
  have hok : mainRun (fun _ => some ([] : Table)) "movies.csv"
      = Except.ok ("cleaned_movies_data.csv", ([] : RTable)) := rfl
  exact ⟨⟨rfl, loader_aborts_before_stages.1 (fun _ => none) "movies.csv" rfl⟩,
    hok, loader_aborts_before_stages.2 (fun _ => some ([] : Table)) "movies.csv"
      ("cleaned_movies_data.csv", ([] : RTable)) hok⟩

/-- C4 (code bug): a missing derived year is supposed to flow through the
remaining stages without error, but the run can abort.  On MOVIES
["x","x","y"] with YEAR ["2000","2000","N/A"], extraction leaves the third
derived year missing (first conjunct); dedup then drops the duplicate
middle row, leaving the gapped labels [0, 2], and YEAR_CLEANED has IQR 0
over its observed values, so the outlier stage's bare RangeIndex(2) mask
cannot be aligned with label 2: pandas raises, main re-raises, and the
run aborts instead of completing (second conjunct). -/
theorem missing_year_run_aborts :
    extract_year_info (handle_missing_values (clean_column_names
        [⟨"MOVIES", ColData.text [some "x", some "x", some "y"]⟩,
          ⟨"YEAR", ColData.text [some "2000", some "2000", some "N/A"]⟩]))
      = Except.ok [⟨"MOVIES", ColData.text [some "x", some "x", some "y"]⟩,
          ⟨"YEAR", ColData.text [some "2000", some "2000", some "N/A"]⟩,
          ⟨"YEAR_CLEANED", ColData.numeric [some 2000, some 2000, none]⟩]
    ∧ runPipeline [⟨"MOVIES", ColData.text [some "x", some "x", some "y"]⟩,
          ⟨"YEAR", ColData.text [some "2000", some "2000", some "N/A"]⟩]
      = Except.error "Unalignable boolean Series provided as indexer" := by
  have hext : extract_year_info (handle_missing_values (clean_column_names
      [⟨"MOVIES", ColData.text [some "x", some "x", some "y"]⟩,
        ⟨"YEAR", ColData.text [some "2000", some "2000", some "N/A"]⟩]))
      = Except.ok [⟨"MOVIES", ColData.text [some "x", some "x", some "y"]⟩,
          ⟨"YEAR", ColData.text [some "2000", some "2000", some "N/A"]⟩,
          ⟨"YEAR_CLEANED", ColData.numeric [some 2000, some 2000, none]⟩] := by
    with_unfolding_all decide
  refine ⟨hext, ?_⟩
  unfold runPipeline
  rw [hext]
  dsimp only
  rw [show remove_outliers_ix
      (filterIdx (List.range (nRows
        [⟨"MOVIES", ColData.text [some "x", some "x", some "y"]⟩,
          ⟨"YEAR", ColData.text [some "2000", some "2000", some "N/A"]⟩,
          ⟨"YEAR_CLEANED", ColData.numeric [some 2000, some 2000, none]⟩]))
        (keepMask
          [⟨"MOVIES", ColData.text [some "x", some "x", some "y"]⟩,
            ⟨"YEAR", ColData.text [some "2000", some "2000", some "N/A"]⟩,
            ⟨"YEAR_CLEANED", ColData.numeric [some 2000, some 2000, none]⟩]))
      (remove_duplicates
        [⟨"MOVIES", ColData.text [some "x", some "x", some "y"]⟩,
          ⟨"YEAR", ColData.text [some "2000", some "2000", some "N/A"]⟩,
          ⟨"YEAR_CLEANED", ColData.numeric [some 2000, some 2000, none]⟩])
      = Except.error "Unalignable boolean Series provided as indexer" from by
    with_unfolding_all decide]
